import Mathlib

/-!
Verification of the road ETL pipeline in src/etl.py.

The pipeline extracts road elements from the Overpass API, transforms each
element into a normalized road record, and loads the records into a `roads`
table with an insert-if-absent conflict policy.  This file is a shallow
embedding of that pipeline: the pure transformation logic is translated
directly from the Python source, the database is modelled as the explicit list
of stored rows acted on by the semantics of the INSERT statement, and the
orchestrator `main` is modelled as the trace of observable stage events it
produces for a given raw extract result.
-/

namespace Etl

/-- One coordinate point of a raw element geometry list.  Each coordinate is
embedded by its decimal text form, i.e. the exact character sequence the
source interpolates into the WKT output, since the pipeline only ever formats
coordinates into text and performs no arithmetic on them. -/
structure Point where
  lon : String
  lat : String
deriving DecidableEq

/-- The raw identifier of an element: the source documents it as int or str. -/
inductive IdVal where
  | int (n : Int)
  | str (s : String)
deriving DecidableEq

/-- A raw Overpass element, as consumed by `transform`.  Every field the code
reads with `dict.get` is optional here; `tags` is an association list standing
for the Python tag dictionary (keys unique). -/
structure RawElement where
  id : Option IdVal
  tags : Option (List (String × String))
  geometry : Option (List Point)
deriving DecidableEq

/-- The raw extract result, a JSON object.  It is modelled by its optional
binding for the key "elements" together with the number of further keys;
`transform` never reads the further keys, but they affect the Python dict
truthiness test performed by `main`. -/
structure RawResult where
  elements : Option (List RawElement)
  otherKeys : Nat
deriving DecidableEq

/-- A transformed road record, the tuple
`(road_id, road_name, road_type, linestring_wkt)` built by `transform`. -/
structure RoadRecord where
  road_id : String
  road_name : String
  road_type : String
  geometry : Option String
deriving DecidableEq

/-- Python `str` applied to `element.get("id")`: the string form of the
identifier, and the literal "None" when the key is absent. -/
def strOfIdOpt : Option IdVal → String
  | none => "None"
  | some (IdVal.int n) => toString n
  | some (IdVal.str s) => s

/-- Python `tags.get(k, dflt)` on the tag dictionary. -/
def dictGet (tags : List (String × String)) (k dflt : String) : String :=
  match tags.lookup k with
  | some v => v
  | none => dflt

/-- Python `", ".join(parts)`. -/
def joinCommaSpace : List String → String
  | [] => ""
  | [s] => s
  | s :: rest => s ++ ", " ++ joinCommaSpace rest

/-- The text of one geometry point, the f-string `"<lon> <lat>"`. -/
def pointText (p : Point) : String :=
  p.lon ++ " " ++ p.lat

/-- The WKT LineString text built by `transform` for a geometry list. -/
def wktOfPoints (pts : List Point) : String :=
  "LINESTRING(" ++ joinCommaSpace (pts.map pointText) ++ ")"

/-- `data.get("elements", [])`. -/
def elementsOf (data : RawResult) : List RawElement :=
  data.elements.getD []

/-- `element.get("tags", \x7b\x7d)` (the empty dictionary as default). -/
def tagsOf (e : RawElement) : List (String × String) :=
  e.tags.getD []

/-- The body of the loop in `transform` applied to one raw element:
identifier coerced to string, name with fallback `"road_" + road_id`, type
with fallback "unknown", and the WKT geometry when a non-empty geometry list
is present (the Python truthiness test `if geometry:` rejects both `None` and
the empty list). -/
def transformElement (e : RawElement) : RoadRecord :=
  let road_id := strOfIdOpt e.id
  let tags := tagsOf e
  let road_name := dictGet tags "name" ("road_" ++ road_id)
  let road_type := dictGet tags "highway" "unknown"
  let geometry :=
    match e.geometry with
    | some (p :: rest) => some (wktOfPoints (p :: rest))
    | _ => none
  ⟨road_id, road_name, road_type, geometry⟩

/-- `transform`: map the loop body over the element list, preserving order. -/
def transform (data : RawResult) : List RoadRecord :=
  (elementsOf data).map transformElement

/-- Semantics of one execution of INSERT_ROAD_QUERY against the stored table:
`INSERT ... ON CONFLICT (road_id) DO NOTHING` appends the row unless a row
with the same `road_id` is already stored. -/
def insertRoad (db : List RoadRecord) (r : RoadRecord) : List RoadRecord :=
  if db.any (fun row => row.road_id == r.road_id) then db else db ++ [r]

/-- `load`: `execute_batch` runs INSERT_ROAD_QUERY once per record, in input
order, against the stored table. -/
def load (db : List RoadRecord) (records : List RoadRecord) : List RoadRecord :=
  records.foldl insertRoad db

/-- Observable stage events of one run of `main`. -/
inductive Event where
  | ensuredSchema
  | extracted
  | transformed (records : List RoadRecord)
  | loaded (records : List RoadRecord)
  | loggedNoData
deriving DecidableEq

/-- Python truthiness of the raw result dict: a dict is truthy exactly when it
has at least one key. -/
def rawTruthy (data : RawResult) : Bool :=
  data.elements.isSome || decide (data.otherKeys ≠ 0)

/-- `extract`, as a function of the outcome of the Overpass API call: the
parsed response on success, and the empty dict on any caught exception. -/
def extract (apiResult : Except String RawResult) : RawResult :=
  match apiResult with
  | Except.ok resp => resp
  | Except.error _ => ⟨none, 0⟩

/-- `main`, modelled as the trace of observable stage events produced for a
given raw extract result: ensure the schema, extract, and only when the raw
dict is truthy transform it and, only when the record list is non-empty, load
it; the warning "No data to process." is logged only on the falsy-dict
branch. -/
def mainTrace (raw : RawResult) : List Event :=
  [Event.ensuredSchema, Event.extracted] ++
    (if rawTruthy raw then
      Event.transformed (transform raw) ::
        (if (transform raw).isEmpty then []
         else [Event.loaded (transform raw)])
    else [Event.loggedNoData])

/-- Longest prefix of the character list before the first occurrence of
`stop`, paired with the remainder after that occurrence (the whole list and
`[]` when `stop` does not occur). -/
def takeUntil (stop : Char) : List Char → List Char × List Char
  | [] => ([], [])
  | c :: cs =>
    if c = stop then ([], cs)
    else
      let r := takeUntil stop cs
      (c :: r.1, r.2)

/-- Drop the single blank that follows a comma separator. -/
def dropOneSpace : List Char → List Char
  | ' ' :: cs => cs
  | cs => cs

/-- Fuelled scanner for the point list inside a LINESTRING body: read the
longitude up to the blank, the latitude up to the comma, skip the blank after
the comma, and repeat. -/
def decPointsAux : Nat → List Char → List (List Char × List Char)
  | 0, _ => []
  | _ + 1, [] => []
  | fuel + 1, c :: cs =>
    let r1 := takeUntil ' ' (c :: cs)
    let r2 := takeUntil ',' r1.2
    (r1.1, r2.1) :: decPointsAux fuel (dropOneSpace r2.2)

/-- Decode the body of a LINESTRING into its coordinate pairs. -/
def decPoints (cs : List Char) : List (List Char × List Char) :=
  decPointsAux cs.length cs

/-- Strip an expected prefix from a character list, or fail. -/
def stripPrefixChars : List Char → List Char → Option (List Char)
  | [], cs => some cs
  | _ :: _, [] => none
  | p :: ps, c :: cs => if c = p then stripPrefixChars ps cs else none

/-- Strip the final closing parenthesis from a character list, or fail. -/
def stripCloseParen (cs : List Char) : Option (List Char) :=
  match cs.reverse with
  | ')' :: rest => some rest.reverse
  | _ => none

/-- Modelled from the spec: the decoder of the line-geometry text form,
which the repository itself does not contain (the destination store parses
the text).  It strips the "LINESTRING(" head and ")" tail and reads the
points, each written as longitude and latitude separated by a blank, with
", " between consecutive points. -/
def parseLinestring (s : String) : Option (List (String × String)) :=
  match stripPrefixChars ("LINESTRING(".data) s.data with
  | none => none
  | some rest =>
    match stripCloseParen rest with
    | none => none
    | some inner =>
      some ((decPoints inner).map (fun p => (String.mk p.1, String.mk p.2)))

/-- A well-formed coordinate text: the decimal form of a float is non-empty
and contains neither a blank nor a comma. -/
abbrev validCoord (s : String) : Prop :=
  s.data ≠ [] ∧ ' ' ∉ s.data ∧ ',' ∉ s.data

/-- Concrete rows used to instantiate the load theorems. -/
def rowA : RoadRecord := ⟨"1", "A", "residential", none⟩

/-- A second row with the same road id as `rowA` but different contents. -/
def rowB : RoadRecord := ⟨"1", "B", "primary", none⟩

/-- A third row with the same road id as `rowA`, used for the re-load. -/
def rowC : RoadRecord := ⟨"1", "C", "unknown", some "LINESTRING(1 2)"⟩

/-- Claim C2: transform applied to the single documented example element
yields exactly the documented record. -/
theorem transform_scenario_main_st :
    transform
        ⟨some [⟨some (IdVal.int 42),
               some [("name", "Main St"), ("highway", "residential")],
               some [⟨"10.0", "20.0"⟩, ⟨"11.0", "21.0"⟩]⟩], 0⟩ =
      [⟨"42", "Main St", "residential",
        some "LINESTRING(10.0 20.0, 11.0 21.0)"⟩] := rfl

/-- Inserting a row never removes a stored road id. -/
theorem insertRoad_any (db : List RoadRecord) (r : RoadRecord) (i : String)
    (h : db.any (fun q => q.road_id == i) = true) :
    (insertRoad db r).any (fun q => q.road_id == i) = true := by
  unfold insertRoad
  split
  · exact h
  · simp only [List.any_append, h, Bool.true_or]

/-- When a row with road id `i` is already stored, an insert changes nothing
about the rows with road id `i`. -/
theorem insertRoad_filter (db : List RoadRecord) (r : RoadRecord) (i : String)
    (h : db.any (fun q => q.road_id == i) = true) :
    (insertRoad db r).filter (fun q => q.road_id == i)
      = db.filter (fun q => q.road_id == i) := by
  unfold insertRoad
  split
  · rfl
  · rename_i hno
    have hri : (r.road_id == i) = false := by
      rcases List.any_eq_true.mp h with ⟨q, hq, hqi⟩
      by_contra hc
      rw [Bool.not_eq_false, beq_iff_eq] at hc
      rw [beq_iff_eq] at hqi
      exact hno (List.any_eq_true.mpr ⟨q, hq, by rw [beq_iff_eq, hqi, hc]⟩)
    simp [List.filter_append, List.filter_cons, hri]

/-- When a row with road id `i` is already stored, a whole batch of inserts
changes nothing about the rows with road id `i`. -/
theorem load_filter_stable (i : String) (rs : List RoadRecord) :
    ∀ db : List RoadRecord, db.any (fun q => q.road_id == i) = true →
      (load db rs).filter (fun q => q.road_id == i)
        = db.filter (fun q => q.road_id == i) := by
  induction rs with
  | nil => intro db _; rfl
  | cons r rs ih =>
    intro db h
    show (load (insertRoad db r) rs).filter _ = _
    rw [ih (insertRoad db r) (insertRoad_any db r i h),
      insertRoad_filter db r i h]

/-- When no row with road id `i` is stored yet, the rows with road id `i`
after a batch of inserts are exactly the first batch record carrying thatid,
if any. -/
theorem load_filter_fresh (i : String) (rs : List RoadRecord) :
    ∀ db : List RoadRecord, db.any (fun q => q.road_id == i) = false →
      (load db rs).filter (fun q => q.road_id == i)
        = (rs.find? (fun q => q.road_id == i)).toList := by
  induction rs with
  | nil =>
    intro db h
    show db.filter _ = []
    rw [List.filter_eq_nil_iff]
    intro q hq
    rw [List.any_eq_false] at h
    exact h q hq
  | cons r rs ih =>
    intro db h
    by_cases hr : (r.road_id == i) = true
    · have hins : insertRoad db r = db ++ [r] := by
        unfold insertRoad
        rw [if_neg]
        intro hc
        rcases List.any_eq_true.mp hc with ⟨q, hq, hqr⟩
        rw [List.any_eq_false] at h
        apply h q hq
        rw [beq_iff_eq] at hqr hr ⊢
        rw [hqr, hr]
      have hdb : db.filter (fun q => q.road_id == i) = [] := by
        rw [List.filter_eq_nil_iff]
        intro q hq
        rw [List.any_eq_false] at h
        exact h q hq
      have hfind : List.find? (fun q => q.road_id == i) (r :: rs)
          = some r := by
        simp [List.find?_cons, hr]
      show (load (insertRoad db r) rs).filter _ = _
      rw [hins, load_filter_stable i rs (db ++ [r])
            (by simp only [List.any_append, List.any_cons, hr,
                  Bool.true_or, Bool.or_true]),
        List.filter_append, hdb, hfind]
      simp [List.filter_cons, hr]
    · have hany : (insertRoad db r).any (fun q => q.road_id == i) = false := by
        unfold insertRoad
        split
        · exact h
        · simp only [List.any_append, List.any_cons, h, List.any_nil,
            Bool.false_or, Bool.or_false]
          exact Bool.not_eq_true _ ▸ eq_false_of_ne_true hr
      have hr2 : (r.road_id == i) = false := eq_false_of_ne_true hr
      have hfind : List.find? (fun q => q.road_id == i) (r :: rs)
          = List.find? (fun q => q.road_id == i) rs := by
        simp [List.find?_cons, hr2]
      show (load (insertRoad db r) rs).filter _ = _
      rw [ih (insertRoad db r) hany, hfind]

/-- Claim C1: loading a record sequence into an empty table and then loading
another record with the road id of one of its members leaves exactly one
stored row for that road id, and that row is the first record of the
sequence carrying it: the conflict policy is insert-if-absent, never
upsert. -/
theorem load_insert_if_absent (records : List RoadRecord) (r r2 : RoadRecord)
    (hmem : r ∈ records) (hid : r2.road_id = r.road_id) :
    ∃ w, records.find? (fun q => q.road_id == r.road_id) = some w ∧
      (load (load [] records) [r2]).filter (fun q => q.road_id == r.road_id)
        = [w] := by
  have hsome : (records.find? (fun q => q.road_id == r.road_id)).isSome := by
    rw [List.find?_isSome]
    exact ⟨r, hmem, by rw [beq_iff_eq]⟩
  rcases Option.isSome_iff_exists.mp hsome with ⟨w, hw⟩
  refine ⟨w, hw, ?_⟩
  have h1 : (load [] records).filter (fun q => q.road_id == r.road_id)
      = [w] := by
    rw [load_filter_fresh r.road_id records [] rfl, hw]
    rfl
  have hwmem : w ∈ (load [] records).filter
      (fun q => q.road_id == r.road_id) := by
    rw [h1]
    exact List.mem_singleton.mpr rfl
  rcases List.mem_filter.mp hwmem with ⟨hmem2, hp⟩
  rw [load_filter_stable r.road_id [r2] (load [] records)
      (List.any_eq_true.mpr ⟨w, hmem2, hp⟩), h1]

/-- Witness for claim C1: two writes under road id "1" followed by a third;
the single surviving row is the first write. -/
theorem load_insert_if_absent_witness :
    ∃ w, [rowA, rowB].find? (fun q => q.road_id == rowA.road_id) = some w ∧
      (load (load [] [rowA, rowB]) [rowC]).filter
          (fun q => q.road_id == rowA.road_id)
        = [w] :=
  load_insert_if_absent [rowA, rowB] rowA rowC (List.mem_cons_self rowA _)
    rfl

/-- String append concatenates the underlying character lists. -/
theorem strData_append (a b : String) : (a ++ b).data = a.data ++ b.data :=
  rfl

/-- Scanning a list without the stop character consumes it whole. -/
theorem takeUntil_not_mem (stop : Char) (cs : List Char) (h : stop ∉ cs) :
    takeUntil stop cs = (cs, []) := by
  induction cs with
  | nil => rfl
  | cons c cs ih =>
    have hc : ¬ c = stop := fun hc => h (by rw [hc]; exact List.mem_cons_self _ _)
    have hm : stop ∉ cs := fun hm => h (List.mem_cons_of_mem _ hm)
    simp [takeUntil, hc, ih hm]

/-- Scanning up to the first stop character splits around it. -/
theorem takeUntil_append (stop : Char) (pre rest : List Char)
    (h : stop ∉ pre) :
    takeUntil stop (pre ++ stop :: rest) = (pre, rest) := by
  induction pre with
  | nil => simp [takeUntil]
  | cons c cs ih =>
    have hc : ¬ c = stop := fun hc => h (by rw [hc]; exact List.mem_cons_self _ _)
    have hm : stop ∉ cs := fun hm => h (List.mem_cons_of_mem _ hm)
    simp [takeUntil, hc, ih hm]

/-- Stripping a prefix from a list that starts with it yields the tail. -/
theorem stripPrefixChars_append (p cs : List Char) :
    stripPrefixChars p (p ++ cs) = some cs := by
  induction p with
  | nil => rfl
  | cons c p ih => simp [stripPrefixChars, ih]

/-- Stripping the final parenthesis from a list that ends with it. -/
theorem stripCloseParen_append (cs : List Char) :
    stripCloseParen (cs ++ [')']) = some cs := by
  simp [stripCloseParen, List.reverse_append]

/-- The scanner returns nothing on the empty body, whatever the fuel. -/
theorem decPointsAux_nil (fuel : Nat) : decPointsAux fuel [] = [] := by
  cases fuel <;> rfl

/-- One unfolding of the scanner on a non-empty body. -/
theorem decPointsAux_cons (fuel : Nat) (c : Char) (cs : List Char) :
    decPointsAux (fuel + 1) (c :: cs)
      = ((takeUntil ' ' (c :: cs)).1,
          (takeUntil ',' (takeUntil ' ' (c :: cs)).2).1) ::
        decPointsAux fuel
          (dropOneSpace (takeUntil ',' (takeUntil ' ' (c :: cs)).2).2) :=
  rfl

/-- The encoded body of a point list is at least as long as the list. -/
theorem join_length_ge (pts : List Point) :
    pts.length ≤ (joinCommaSpace (pts.map pointText)).data.length := by
  induction pts with
  | nil => simp [joinCommaSpace]
  | cons p ps ih =>
    cases ps with
    | nil =>
      show 1 ≤ ((p.lon ++ " ") ++ p.lat).data.length
      simp only [strData_append, List.length_append, List.length_cons,
        List.length_nil]
      omega
    | cons q qs =>
      show (q :: qs).length + 1 ≤
        ((pointText p ++ ", ")
          ++ joinCommaSpace ((q :: qs).map pointText)).data.length
      have ih2 := ih
      simp only [strData_append, List.length_append, List.length_cons,
        List.length_nil] at ih2 ⊢
      omega

/-- Scanning the encoded body of a point list recovers the coordinate texts
in order, provided the fuel covers the number of points and every coordinate
text is a well-formed decimal form. -/
theorem decPointsAux_enc (pts : List Point) :
    ∀ fuel : Nat, pts.length ≤ fuel →
      (∀ p ∈ pts, validCoord p.lon ∧ validCoord p.lat) →
      decPointsAux fuel (joinCommaSpace (pts.map pointText)).data
        = pts.map (fun p => (p.lon.data, p.lat.data)) := by
  induction pts with
  | nil =>
    intro fuel _ _
    exact decPointsAux_nil fuel
  | cons p ps ih =>
    intro fuel hfuel hval
    obtain ⟨lonne, lonsp, _⟩ := (hval p (List.mem_cons_self _ _)).1
    obtain ⟨_, _, latcm⟩ := (hval p (List.mem_cons_self _ _)).2
    obtain ⟨l, ls, hl⟩ := List.exists_cons_of_ne_nil lonne
    cases fuel with
    | zero => exact absurd hfuel (by simp)
    | succ fuel =>
      cases ps with
      | nil =>
        have hshape : (joinCommaSpace ([p].map pointText)).data
            = p.lon.data ++ ' ' :: p.lat.data := by
          show (p.lon.data ++ [' ']) ++ p.lat.data = _
          rw [List.append_assoc]
          rfl
        rw [hshape, hl, List.cons_append, decPointsAux_cons]
        have h1 : takeUntil ' ' (l :: (ls ++ ' ' :: p.lat.data))
            = (l :: ls, p.lat.data) := by
          rw [← List.cons_append]
          exact takeUntil_append ' ' (l :: ls) p.lat.data (hl ▸ lonsp)
        rw [h1, takeUntil_not_mem ',' p.lat.data latcm]
        rw [show dropOneSpace ([] : List Char) = [] from rfl,
          decPointsAux_nil, ← hl]
        rfl
      | cons q qs =>
        have hshape : (joinCommaSpace ((p :: q :: qs).map pointText)).data
            = p.lon.data ++ ' ' :: (p.lat.data ++ ',' :: ' ' ::
                (joinCommaSpace ((q :: qs).map pointText)).data) := by
          show (((p.lon.data ++ [' ']) ++ p.lat.data) ++ [',', ' '])
              ++ (joinCommaSpace ((q :: qs).map pointText)).data = _
          simp [List.append_assoc]
        rw [hshape, hl, List.cons_append, decPointsAux_cons]
        have h1 : takeUntil ' ' (l :: (ls ++ ' ' :: (p.lat.data ++ ',' :: ' ' ::
            (joinCommaSpace ((q :: qs).map pointText)).data)))
            = (l :: ls, p.lat.data ++ ',' :: ' ' ::
                (joinCommaSpace ((q :: qs).map pointText)).data) := by
          rw [← List.cons_append]
          exact takeUntil_append ' ' (l :: ls) _ (hl ▸ lonsp)
        rw [h1, takeUntil_append ',' p.lat.data _ latcm]
        rw [show ∀ cs : List Char, dropOneSpace (' ' :: cs) = cs
              from fun _ => rfl]
        rw [ih fuel (Nat.le_of_succ_le_succ hfuel)
              (fun x hx => hval x (List.mem_cons_of_mem _ hx)), ← hl]
        rfl

/-- Claim C6: encoding a non-empty coordinate-pair sequence into the
LINESTRING text form and decoding that text yields the original sequence of
coordinate pairs in the original order. -/
theorem wkt_roundtrip (pts : List Point) (hne : pts ≠ [])
    (hval : ∀ p ∈ pts, validCoord p.lon ∧ validCoord p.lat) :
    parseLinestring (wktOfPoints pts)
      = some (pts.map (fun p => (p.lon, p.lat))) := by
  have hdata : (wktOfPoints pts).data
      = "LINESTRING(".data ++
          ((joinCommaSpace (pts.map pointText)).data ++ [')']) := by
    show ("LINESTRING(".data ++ (joinCommaSpace (pts.map pointText)).data)
        ++ ")".data = _
    rw [List.append_assoc]
  simp only [parseLinestring, hdata, stripPrefixChars_append,
    stripCloseParen_append]
  unfold decPoints
  rw [decPointsAux_enc pts _ (join_length_ge pts) hval]
  simp only [List.map_map]
  rfl

/-- Witness for claim C6 at the documented two-point geometry. -/
theorem wkt_roundtrip_witness :
    parseLinestring (wktOfPoints [⟨"10.0", "20.0"⟩, ⟨"11.0", "21.0"⟩])
      = some [("10.0", "20.0"), ("11.0", "21.0")] :=
  wkt_roundtrip [⟨"10.0", "20.0"⟩, ⟨"11.0", "21.0"⟩] (by decide) (by decide)

/-- Looking a key up in the tag dictionary with a hit ignores the default. -/
theorem dictGet_some (tags : List (String × String)) (k dflt v : String)
    (h : tags.lookup k = some v) : dictGet tags k dflt = v := by
  unfold dictGet
  rw [h]

/-- Looking a key up in the tag dictionary with a miss takes the default. -/
theorem dictGet_none (tags : List (String × String)) (k dflt : String)
    (h : tags.lookup k = none) : dictGet tags k dflt = dflt := by
  unfold dictGet
  rw [h]

/-- The name fallback is never the empty string. -/
theorem road_ne_empty (s : String) : "road_" ++ s ≠ "" := by
  intro hc
  have hd : ("road_" ++ s).data = ("" : String).data := congrArg String.data hc
  rw [strData_append] at hd
  rcases List.append_eq_nil.mp hd with ⟨h1, _⟩
  exact absurd h1 (by decide)

/-- Counterexample to claim C3 as stated: when the source supplies an
empty-string name tag value, the produced record carries an empty
road_name — Python dict.get applies the fallback only when the key is
absent, not when its value is empty. -/
theorem transform_empty_name_cex :
    transform ⟨some [⟨some (IdVal.int 1), some [("name", "")], none⟩], 0⟩
      = [⟨"1", "", "unknown", none⟩] := rfl

/-- Claim C3 (amended): every record produced by transform has a string
road_id, and its road_name and road_type are non-empty provided the source
never supplies an empty-string name or highway tag value; a supplied
empty-string tag value passes through unchanged. -/
theorem transform_fields_nonempty (data : RawResult) (r : RoadRecord)
    (hr : r ∈ transform data)
    (htags : ∀ e ∈ elementsOf data,
      (tagsOf e).lookup "name" ≠ some "" ∧
      (tagsOf e).lookup "highway" ≠ some "") :
    r.road_name ≠ "" ∧ r.road_type ≠ "" := by
  rcases List.mem_map.mp hr with ⟨e, he, rfl⟩
  refine ⟨?_, ?_⟩
  · show dictGet (tagsOf e) "name" ("road_" ++ strOfIdOpt e.id) ≠ ""
    cases hlk : (tagsOf e).lookup "name" with
    | some v =>
      rw [dictGet_some _ _ _ _ hlk]
      intro hv
      exact (htags e he).1 (hv ▸ hlk)
    | none =>
      rw [dictGet_none _ _ _ hlk]
      exact road_ne_empty _
  · show dictGet (tagsOf e) "highway" "unknown" ≠ ""
    cases hlk : (tagsOf e).lookup "highway" with
    | some v =>
      rw [dictGet_some _ _ _ _ hlk]
      intro hv
      exact (htags e he).2 (hv ▸ hlk)
    | none =>
      rw [dictGet_none _ _ _ hlk]
      decide

/-- Witness for the amended claim C3 at a concrete element without tags. -/
theorem transform_fields_nonempty_witness :
    (⟨"7", "road_7", "unknown", none⟩ : RoadRecord).road_name ≠ "" ∧
    (⟨"7", "road_7", "unknown", none⟩ : RoadRecord).road_type ≠ "" :=
  transform_fields_nonempty ⟨some [⟨some (IdVal.int 7), none, none⟩], 0⟩
    ⟨"7", "road_7", "unknown", none⟩ (by decide) (by decide)

/-- Counterexample to claim C4 as stated: the truthy raw result with an empty
element list transforms to the empty record sequence, yet the run logs
nothing on that branch — the warning is logged only when the raw dict itself
is falsy. -/
theorem mainTrace_missing_log_cex :
    transform ⟨some [], 0⟩ = [] ∧
    mainTrace ⟨some [], 0⟩
      = [Event.ensuredSchema, Event.extracted, Event.transformed []] :=
  ⟨rfl, rfl⟩

/-- Claim C4 (amended): in the orchestrated run, load is only ever invoked
on a non-empty record sequence, and the warning is logged exactly when the
raw extract result is falsy; when a truthy raw result transforms into an
empty record sequence, load is not invoked but nothing is logged. -/
theorem mainTrace_load_policy (raw : RawResult) :
    (∀ recs, Event.loaded recs ∈ mainTrace raw → recs ≠ []) ∧
    (Event.loggedNoData ∈ mainTrace raw ↔ rawTruthy raw = false) := by
  unfold mainTrace
  by_cases h : rawTruthy raw
  · rw [if_pos h]
    cases hts : transform raw with
    | nil =>
      constructor
      · intro recs hrec
        simp [List.isEmpty] at hrec
      · simp [h, List.isEmpty]
    | cons t ts =>
      constructor
      · intro recs hrec
        simp [List.isEmpty] at hrec
        rw [hrec]
        exact List.cons_ne_nil t ts
      · simp [h, List.isEmpty]
  · rw [if_neg h]
    constructor
    · intro recs hrec
      simp at hrec
    · simp [eq_false_of_ne_true h]

/-- Witness for the amended claim C4: the falsy raw result logs the
warning. -/
theorem mainTrace_load_policy_witness :
    Event.loggedNoData ∈ mainTrace ⟨none, 0⟩ :=
  (mainTrace_load_policy ⟨none, 0⟩).2.mpr rfl

/-- Claim C5: a failing external-source call is caught and yields the empty
raw result, which has no elements; the orchestrated run then takes the falsy
branch, so no record sequence is produced and load is not attempted. -/
theorem extract_failure_empty (e : String) :
    extract (Except.error e) = ⟨none, 0⟩ ∧
    elementsOf (extract (Except.error e)) = [] ∧
    mainTrace (extract (Except.error e))
      = [Event.ensuredSchema, Event.extracted, Event.loggedNoData] :=
  ⟨rfl, rfl, rfl⟩

/-- Witness for claim C5 at a concrete error message. -/
theorem extract_failure_empty_witness :
    extract (Except.error "boom") = ⟨none, 0⟩ :=
  (extract_failure_empty "boom").1

/-- Claim C7: for every raw element whose tag mapping has no name key, the
produced record appears in the transform output and its road_name is "road_"
concatenated with the string form of the element identifier. -/
theorem transform_name_fallback (data : RawResult) (e : RawElement)
    (he : e ∈ elementsOf data)
    (hname : (tagsOf e).lookup "name" = none) :
    transformElement e ∈ transform data ∧
    (transformElement e).road_name = "road_" ++ strOfIdOpt e.id := by
  refine ⟨List.mem_map_of_mem _ he, ?_⟩
  show dictGet (tagsOf e) "name" ("road_" ++ strOfIdOpt e.id) = _
  exact dictGet_none _ _ _ hname

/-- Witness for claim C7 at a concrete element with an empty tag mapping. -/
theorem transform_name_fallback_witness :
    transformElement ⟨some (IdVal.int 7), some [], none⟩
        ∈ transform ⟨some [⟨some (IdVal.int 7), some [], none⟩], 0⟩ ∧
    (transformElement ⟨some (IdVal.int 7), some [], none⟩).road_name
        = "road_" ++ strOfIdOpt (some (IdVal.int 7)) :=
  transform_name_fallback ⟨some [⟨some (IdVal.int 7), some [], none⟩], 0⟩
    ⟨some (IdVal.int 7), some [], none⟩ (List.mem_cons_self _ _) rfl

/-- Claim C8: for every raw element whose geometry is absent or empty, the
produced record has an absent geometry rather than an empty string, and for
every raw element whose tag mapping has no highway key, the produced record
road_type is "unknown". -/
theorem transform_fallbacks (data : RawResult) (e : RawElement)
    (he : e ∈ elementsOf data) :
    transformElement e ∈ transform data ∧
    ((e.geometry = none ∨ e.geometry = some []) →
      (transformElement e).geometry = none) ∧
    ((tagsOf e).lookup "highway" = none →
      (transformElement e).road_type = "unknown") := by
  refine ⟨List.mem_map_of_mem _ he, ?_, ?_⟩
  · intro hg
    show (match e.geometry with
      | some (p :: rest) => some (wktOfPoints (p :: rest))
      | _ => none) = none
    rcases hg with hg | hg <;> rw [hg]
  · intro hh
    show dictGet (tagsOf e) "highway" "unknown" = "unknown"
    exact dictGet_none _ _ _ hh

/-- Witness for claim C8 at a concrete element with no tags and no
geometry. -/
theorem transform_fallbacks_witness :
    (transformElement ⟨some (IdVal.int 7), none, none⟩).geometry = none ∧
    (transformElement ⟨some (IdVal.int 7), none, none⟩).road_type
      = "unknown" :=
  ⟨(transform_fallbacks ⟨some [⟨some (IdVal.int 7), none, none⟩], 0⟩
      ⟨some (IdVal.int 7), none, none⟩
      (List.mem_cons_self _ _)).2.1 (Or.inl rfl),
   (transform_fallbacks ⟨some [⟨some (IdVal.int 7), none, none⟩], 0⟩
      ⟨some (IdVal.int 7), none, none⟩
      (List.mem_cons_self _ _)).2.2 rfl⟩

/-- Claim C9: a raw element with no identifier field is not rejected: its
record appears in the transform output with the length of the output equal
to the length of the element list, its road_id is the literal string "None",
and when the name tag is also absent its road_name is "road_None". -/
theorem transform_missing_id (data : RawResult) (e : RawElement)
    (he : e ∈ elementsOf data) (hid2 : e.id = none) :
    transformElement e ∈ transform data ∧
    (transform data).length = (elementsOf data).length ∧
    (transformElement e).road_id = "None" ∧
    ((tagsOf e).lookup "name" = none →
      (transformElement e).road_name = "road_None") := by
  refine ⟨List.mem_map_of_mem _ he, List.length_map _ _, ?_, ?_⟩
  · show strOfIdOpt e.id = "None"
    rw [hid2]
    rfl
  · intro hname
    show dictGet (tagsOf e) "name" ("road_" ++ strOfIdOpt e.id) = "road_None"
    rw [dictGet_none _ _ _ hname, hid2]
    rfl

/-- Witness for claim C9 at the fully empty element. -/
theorem transform_missing_id_witness :
    (transformElement ⟨none, none, none⟩).road_id = "None" ∧
    (transformElement ⟨none, none, none⟩).road_name = "road_None" :=
  ⟨(transform_missing_id ⟨some [⟨none, none, none⟩], 0⟩ ⟨none, none, none⟩
      (List.mem_cons_self _ _) rfl).2.2.1,
   (transform_missing_id ⟨some [⟨none, none, none⟩], 0⟩ ⟨none, none, none⟩
      (List.mem_cons_self _ _) rfl).2.2.2 rfl⟩

/-- Claim C10: an input object with no "elements" key transforms to the
empty record sequence, and when the object has any other key it is truthy,
so the orchestrated run still enters the transform stage — the emptiness
test of main is on the dict itself, not on its element list. -/
theorem transform_no_elements_key (data : RawResult)
    (h : data.elements = none) :
    transform data = [] ∧
    (data.otherKeys ≠ 0 →
      rawTruthy data = true ∧ Event.transformed [] ∈ mainTrace data) := by
  have h1 : transform data = [] := by
    unfold transform elementsOf
    rw [h]
    rfl
  refine ⟨h1, fun hk => ?_⟩
  have h2 : rawTruthy data = true := by
    unfold rawTruthy
    rw [h]
    simp [hk]
  refine ⟨h2, ?_⟩
  unfold mainTrace
  rw [if_pos h2, h1]
  simp [List.isEmpty]

/-- Witness for claim C10 at an object holding one unrelated key. -/
theorem transform_no_elements_key_witness :
    transform ⟨none, 1⟩ = [] ∧
    (rawTruthy ⟨none, 1⟩ = true ∧
      Event.transformed [] ∈ mainTrace ⟨none, 1⟩) :=
  ⟨(transform_no_elements_key ⟨none, 1⟩ rfl).1,
   (transform_no_elements_key ⟨none, 1⟩ rfl).2 (by decide)⟩

end Etl
